import Mathlib

/-!
Verification of the error-object and stack-trace capture subsystem
(`lib/VM/JSError.cpp` of the hermes repository) against its design
specification. The C++ code is shallowly embedded: code blocks are
identified by numeric ids, pointer identity becomes id equality,
`CallResult`/`ExecutionStatus` become `Except`-style results, and the
runtime's allocation outcomes are supplied by explicit oracles so that
every failure path of the source is representable.
-/

set_option maxRecDepth 8192

namespace HermesJSError

/-- A JavaScript value as far as this subsystem observes it: `undefined`
or a string primitive. (Other value kinds behave like `undefined` in all
paths modelled here: they are neither string primitives nor absent.) -/
inductive Val where
  | undefined
  | str (s : String)
deriving DecidableEq, Repr

/-- Model of `ExecutionStatus` from the source: a call either returned or raised. -/
inductive ExecutionStatus where
  | returned
  | exception
deriving DecidableEq, Repr

/-- Model of `StackTraceInfo`: one captured frame, a (possibly null) code block and
a bytecode offset. A `none` code block denotes a native frame. Code blocks
are identified by numeric ids (pointer identity in the source). -/
structure TraceEntry where
  codeBlock : Option Nat
  bytecodeOffset : Nat
deriving DecidableEq, Repr

/-- The `JSError` object's internal fields: the exclusively-owned trace
buffer `stacktrace_`, the GC-traced parallel name list `funcNames_`, the
consecutively-deduplicated `domains_` list, the trimming index
`firstExposedFrameIndex_` and the `catchable_` flag. -/
structure JSError where
  stacktrace_ : Option (List TraceEntry)
  funcNames_ : Option (List Val)
  domains_ : Option (List Nat)
  firstExposedFrameIndex_ : Nat
  catchable_ : Bool
deriving DecidableEq, Repr

mutual
/-- The slice of a JS object that `JSError::toString` observes: the results
of `Get(O, "name")` and `Get(O, "message")`, each of which may itself throw
(property getters run user code). -/
inductive ErrObj where
  | mk (nameProp : PropRes) (msgProp : PropRes)

/-- Result of a property read: a value, or a thrown JS value. -/
inductive PropRes where
  | ok (v : Val)
  | exc (t : Thrown)

/-- A thrown JS value. `obj` is a thrown object (with its observable
name/message properties and, when it is a `JSError`, whether it is
uncatchable); `nonObj` is a thrown non-object value (such values are
always catchable: `isUncatchableError` holds only of uncatchable
`JSError` objects). -/
inductive Thrown where
  | obj (o : ErrObj) (uncatchable : Bool)
  | nonObj
end

/-- Model of `isUncatchableError` from the source: a thrown value is uncatchable
iff it is a `JSError` object with `catchable_ == false`. -/
def isUncatchableError : Thrown → Bool
  | .obj _ u => u
  | .nonObj => false

def ErrObj.nameProp : ErrObj → PropRes
  | .mk n _ => n

def ErrObj.msgProp : ErrObj → PropRes
  | .mk _ m => m

/-- Model of `toString_RJS` restricted to the values of this model: a string
converts to itself, `undefined` to `"undefined"`. -/
def toString_RJS : Val → String
  | .undefined => "undefined"
  | .str s => s

/-- Model of `JSError::toString` (Error.prototype.toString, source lines 229-307):
get `name` (defaulting `undefined` to `"Error"`), get `message`
(defaulting `undefined` to the empty string), and return `msg` if the name
is empty, `name` if the message is empty, and `name ++ ": " ++ msg`
otherwise. A throw from either property read propagates. -/
def JSError.toString (O : ErrObj) : Except Thrown String :=
  match O.nameProp with
  | .exc t => .error t
  | .ok name =>
    let nameStr := match name with
      | .undefined => "Error"
      | v => toString_RJS v
    match O.msgProp with
    | .exc t => .error t
    | .ok msg =>
      let msgStr := match msg with
        | .undefined => ""
        | v => toString_RJS v
      if nameStr = "" then .ok msgStr
      else if msgStr = "" then .ok nameStr
      else .ok (nameStr ++ ": " ++ msgStr)

/-- A debug source location: line, column and filename id
(`hbc::DebugSourceLocation` as far as rendering observes it). -/
structure DebugLoc where
  line : Nat
  column : Nat
  filenameId : Nat
deriving DecidableEq, Repr

/-- The runtime-module / debug-info query surface consumed by the
formatter (external collaborators of the subsystem): per-code-block debug
locations, virtual offsets, segment ids, filenames, source URLs, symbol
names, and domain ownership. Code blocks and domains are numeric ids. -/
structure Env where
  getDebugInfo : Nat → Nat → Option DebugLoc
  getVirtualOffset : Nat → Nat
  getSegmentID : Nat → Nat
  getFilenameByID : Nat → String
  getSourceURL : Nat → String
  cbName : Nat → Option String
  domainOf : Nat → Nat

/-- An exceptional outcome of a formatting path: a thrown JS value, a
native-stack-overflow raise, or an allocation failure. -/
inductive Exc where
  | thrown (t : Thrown)
  | stackOverflow
  | allocFailure

/-- The error-description part of default synthesis (source lines
580-622): `%Error.prototype.toString%(target)`; if that throws a
catchable *object*, the pending throw is cleared and the thrown object is
itself stringified; if the result is still an exception it propagates
when uncatchable, and otherwise is cleared and replaced by the literal
`"<error>"`; a successful retried description is wrapped as
`"<while converting error to string: " ++ description ++ ">"`. -/
def stackHeader (target : ErrObj) : Except Thrown String :=
  let res := JSError.toString target
  let targetHandleToStringThrew := match res with
    | .error _ => true
    | .ok _ => false
  let res2 : Except Thrown String := match res with
    | .ok s => .ok s
    | .error t =>
      if ¬ isUncatchableError t then
        match t with
        | .obj o _ => JSError.toString o
        | .nonObj => .error t
      else .error t
  match res2 with
  | .error t =>
    if isUncatchableError t then .error t
    else .ok "<error>"
  | .ok s =>
    if targetHandleToStringThrew then
      .ok ("<while converting error to string: " ++ s ++ ">")
    else .ok s

def PRINT_HEAD : Nat := 50

def PRINT_TAIL : Nat := 50

/-- One iteration of the frame-rendering loop of
`constructStackTraceString_RJS`: either the truncation marker line or the
frame line for the (relative) index `index`. -/
inductive LineItem where
  | skip (n : Nat)
  | frame (index : Nat)
deriving DecidableEq, Repr

/-- The control flow of the frame loop (source lines 632-656): indices run
from 0 to `max`; when `max > PRINT_HEAD + PRINT_TAIL`, iteration
`PRINT_HEAD` emits the skip marker instead of a frame, and an index
strictly between `PRINT_HEAD` and `max - PRINT_TAIL` jumps to
`max - PRINT_TAIL` (which is rendered in that same iteration). -/
def framesLoopItems (max index : Nat) : List LineItem :=
  if index < max then
    if max > PRINT_HEAD + PRINT_TAIL ∧ index = PRINT_HEAD then
      LineItem.skip (max - PRINT_HEAD - PRINT_TAIL) :: framesLoopItems max (index + 1)
    else if max > PRINT_HEAD + PRINT_TAIL ∧ PRINT_HEAD < index ∧ index < max - PRINT_TAIL then
      LineItem.frame (max - PRINT_TAIL) :: framesLoopItems max (max - PRINT_TAIL + 1)
    else
      LineItem.frame index :: framesLoopItems max (index + 1)
  else []
termination_by max - index
decreasing_by
  all_goals simp only [PRINT_HEAD, PRINT_TAIL] at *
  all_goals omega

/-- Model of `JSError::getFunctionNameAtIndex` (source lines 518-550): take the
`funcNames_` entry when it is a string; if absent or empty fall back to
the code block's symbol name; return null (`none`) when the result is
still absent or empty. (A null handle and the empty string flow
identically through the source, so both are collapsed into "no name".) -/
def getFunctionNameAtIndex (env : Env) (e : JSError) (index : Nat) : Option String :=
  let name1 : Option String :=
    match e.funcNames_ with
    | some l =>
      match l.getD index .undefined with
      | .str s => some s
      | .undefined => none
    | none => some ""
  let name2 : Option String :=
    if name1 = none ∨ name1 = some "" then
      match ((e.stacktrace_.getD []).getD index ⟨none, 0⟩).codeBlock with
      | some cb => env.cbName cb
      | none => name1
    else name1
  if name2 = none ∨ name2 = some "" then none else name2

/-- The body of one frame-rendering iteration (source lines 658-737) for
absolute trace index `absIndex`: `"\n    at "`, the function name (or
`"anonymous"`), then `" (native)"` for a null code block, a real
`(filename:line:column)` when debug info exists, and otherwise the
synthesized `(address at url:segment+1:offset+virtualOffset)` location.
(The source's per-call virtual-offset cache is elided: it memoizes the
pure query `getVirtualOffset`, so the rendered text is unchanged.) -/
def frameLine (env : Env) (e : JSError) (absIndex : Nat) : String :=
  let sti := (e.stacktrace_.getD []).getD absIndex ⟨none, 0⟩
  let namePart := match getFunctionNameAtIndex env e absIndex with
    | some s => s
    | none => "anonymous"
  "\n    at " ++ namePart ++
    match sti.codeBlock with
    | none => " (native)"
    | some cb =>
      match env.getDebugInfo cb sti.bytecodeOffset with
      | some loc =>
        " (" ++ env.getFilenameByID loc.filenameId ++ ":" ++
          Nat.repr loc.line ++ ":" ++ Nat.repr loc.column ++ ")"
      | none =>
        let lineNo := env.getSegmentID cb + 1
        let columnNo := sti.bytecodeOffset + env.getVirtualOffset cb
        let src := env.getSourceURL cb
        " (address at " ++ (if src = "" then "unknown" else src) ++ ":" ++
          Nat.repr lineNo ++ ":" ++ Nat.repr columnNo ++ ")"

/-- Text of one loop iteration: the marker line, or the frame line at
absolute index `index + firstExposedFrameIndex_` (source line 658). -/
def lineText (env : Env) (e : JSError) : LineItem → String
  | .skip n => "\n    ... skipping " ++ Nat.repr n ++ " frames"
  | .frame index => frameLine env e (index + e.firstExposedFrameIndex_)

/-- Model of `JSError::constructStackTraceString_RJS` (source lines 566-739): raise
stack overflow when the native depth tracker overflowed, otherwise the
error description followed by the rendered frame lines, where
`max = stacktrace_.length - firstExposedFrameIndex_` exposed frames are
considered. -/
def constructStackTraceString (env : Env) (depthOverflow : Bool)
    (e : JSError) (target : ErrObj) : Except Exc String :=
  if depthOverflow then .error .stackOverflow
  else
    match stackHeader target with
    | .error t => .error (.thrown t)
    | .ok header =>
      let max := (e.stacktrace_.getD []).length - e.firstExposedFrameIndex_
      .ok (header ++ String.join ((framesLoopItems max 0).map (lineText env e)))

/-- A callable as the trimming and capture logic distinguishes it: a
`JSFunction` with a code block, a `BoundFunction` with its (possibly
null) target, or any other callable (native function, proxy, ...). -/
inductive Callable where
  | jsFunction (cb : Nat)
  | bound (target : Option Callable)
  | other

/-- Model of `getLeafCodeBlock` (source lines 794-810): follow the bound-function
target chain; a `JSFunction` yields its code block, a null target or any
non-function, non-bound callable yields nullptr. -/
def getLeafCodeBlock : Callable → Option Nat
  | .jsFunction cb => some cb
  | .bound (some target) => getLeafCodeBlock target
  | .bound none => none
  | .other => none

/-- The scan of source lines 825-832: the first index (innermost first)
whose entry's code block is `cb`, if any. -/
def findCodeBlockIndex (cb : Nat) : List TraceEntry → Nat → Option Nat
  | [], _ => none
  | sti :: rest, index =>
    if sti.codeBlock = some cb then some index
    else findCodeBlockIndex cb rest (index + 1)

/-- Model of `JSError::popFramesUntilInclusive` (source lines 812-833): default the
exposed index to the whole trace length (hiding everything), resolve the
sentinel callable's leaf code block, and on the first matching entry set
`firstExposedFrameIndex_` to one past it. The source asserts
`stacktrace_` is set; a trace-less error is returned unchanged here. -/
def popFramesUntilInclusive (e : JSError) (callableHandle : Callable) : JSError :=
  match e.stacktrace_ with
  | none => e
  | some tr =>
    match getLeafCodeBlock callableHandle with
    | none => { e with firstExposedFrameIndex_ := tr.length }
    | some cb =>
      match findCodeBlockIndex cb tr 0 with
      | some index => { e with firstExposedFrameIndex_ := index + 1 }
      | none => { e with firstExposedFrameIndex_ := tr.length }

/-- A `JSCallSite`: a reference back into the owning error's frozen trace
by absolute frame index (no copy of the trace data). -/
structure CallSite where
  absIndex : Nat
deriving DecidableEq, Repr

/-- Model of `JSError::constructCallSitesArray` (source lines 741-790): one call
site per exposed frame, `max = stacktrace_.length - firstExposedFrameIndex_`
of them (0 for a trace-less error), each holding the absolute index
`index + firstExposedFrameIndex_`; no 100-frame truncation is applied. -/
def constructCallSitesArray (e : JSError) : List CallSite :=
  match e.stacktrace_ with
  | none => []
  | some tr =>
    let max := tr.length - e.firstExposedFrameIndex_
    (List.range max).map fun index => ⟨index + e.firstExposedFrameIndex_⟩

/-- Outcome of `getNamedDescriptorPredefined` for one property: not found,
or found with its descriptor flags and (unsafe slot) value. -/
inductive PropLookup where
  | notFound
  | found (accessor proxyObject hostObject : Bool) (value : Val)

/-- A callable callee as the name snapshot observes it: its shape (for
`getCalleeCodeBlock`) plus the lookup outcomes for its `displayName` and
`name` properties. -/
structure ClosureInfo where
  kind : Callable
  displayNameLookup : PropLookup
  nameLookup : PropLookup

/-- Model of `CalleeClosureOrCB` of a stack frame: a callable object, a
non-callable object, or a raw native pointer to a `CodeBlock`. -/
inductive Callee where
  | closure (info : ClosureInfo)
  | nonCallableObject
  | codeBlockPtr (cb : Nat)

/-- A live stack frame as capture observes it (innermost first in the
runtime's frame list): its callee, its saved code block and saved IP.
Instruction pointers are represented directly by their bytecode offsets
(`getOffsetOf` is the identity here). -/
structure Frame where
  callee : Callee
  savedCodeBlock : Option Nat
  savedIP : Option Nat

/-- Model of `StackFramePtr::getCalleeCodeBlock`: the code block when the callee is
a raw code block pointer or a `JSFunction`; null otherwise. -/
def Frame.calleeCodeBlock : Frame → Option Nat
  | ⟨.closure info, _, _⟩ =>
    match info.kind with
    | .jsFunction cb => some cb
    | _ => none
  | ⟨.codeBlockPtr cb, _, _⟩ => some cb
  | ⟨.nonCallableObject, _, _⟩ => none

/-- The predefined name recorded for proxy callables
(`Predefined::proxyTrap`; the exact text is not claim-relevant). -/
def proxyTrapName : String := "proxy"

/-- The name resolved for a callable callee (source lines 363-380):
`displayName` first, then `name`; a found non-accessor, non-proxy,
non-host slot yields its value; a proxy yields the fixed placeholder
name; anything else yields `undefined`. -/
def closureName (info : ClosureInfo) : Val :=
  let lookup := match info.displayNameLookup with
    | .notFound => info.nameLookup
    | l => l
  match lookup with
  | .found accessor proxyObject hostObject v =>
    if accessor = false ∧ proxyObject = false ∧ hostObject = false then v
    else if proxyObject then .str proxyTrapName
    else .undefined
  | .notFound => .undefined

/-- The name recorded for one frame (source lines 360-389): callables per
`closureName`, raw code block pointers per the block's symbol name (when
valid), and everything else `undefined`. -/
def frameName (env : Env) (f : Frame) : Val :=
  match f.callee with
  | .closure info => closureName info
  | .nonCallableObject => .undefined
  | .codeBlockPtr cb =>
    match env.cbName cb with
    | some s => .str s
    | none => .undefined

/-- Allocation outcomes supplied to one `recordStackTrace` call: the
domain-list creation and each of its pushes, and the name-storage
creation and each of its resizes (`true` = allocation succeeds). -/
structure CaptureOracles where
  domainsCreateOk : Bool
  domainPushOk : Nat → Bool
  namesCreateOk : Bool
  namesResizeOk : Nat → Bool

/-- The per-frame loop of `getCallStackFunctionNames` (source lines
356-400): resize the storage for each processed frame (abort the whole
snapshot on failure, mirroring the cleared throw and null return), and
record that frame's name. -/
def namesLoop (env : Env) (resizeOk : Nat → Bool) :
    List Frame → Nat → Option (List Val)
  | [], _ => some []
  | f :: rest, namesIndex =>
    if resizeOk namesIndex then
      (namesLoop env resizeOk rest (namesIndex + 1)).map (frameName env f :: ·)
    else none

/-- Model of `getCallStackFunctionNames` (source lines 339-403): null when the
storage cannot be created, otherwise the best-effort name list over the
frames (skipping the top frame when asked), aborted to null when a resize
fails. Failures clear the pending throw: no exception escapes. -/
def getCallStackFunctionNames (env : Env) (orc : CaptureOracles)
    (skipTopFrame : Bool) (frames : List Frame) : Option (List Val) :=
  if orc.namesCreateOk then
    namesLoop env orc.namesResizeOk
      (if skipTopFrame then frames.drop 1 else frames) 0
  else none

/-- State of the `domains` accumulation: the list built so far and how
many pushes were attempted (indexing the push oracle). -/
structure DomState where
  domains : List Nat
  pushCount : Nat

/-- Model of `addDomain` (source lines 435-445): append the code block's domain
unless it equals the most recently appended one; `none` models a failed
`push_back` allocation (an exception in the source). -/
def addDomain (env : Env) (orc : CaptureOracles) (cb : Nat) (st : DomState) :
    Option DomState :=
  let domain := env.domainOf cb
  if st.domains.getLast? = some domain then some st
  else if orc.domainPushOk st.pushCount then
    some ⟨st.domains ++ [domain], st.pushCount + 1⟩
  else none

/-- Each frame paired with its previous (caller) frame, i.e. the next one
in the innermost-first list; the outermost frame's previous frame is the
end sentinel (`none`). -/
def framePairs : List Frame → List (Frame × Option Frame)
  | [] => []
  | [f] => [(f, none)]
  | f :: g :: rest => (f, some g) :: framePairs (g :: rest)

/-- The trace entry recorded for one frame (source lines 462-483): use
the caller's callee code block when resolvable (accounting for bound
functions), else the frame's saved code block; with both a code block and
a saved IP record `(block, offset)`, otherwise a native `(null, 0)`. -/
def captureEntry (f : Frame) (prevFrame : Option Frame) : TraceEntry :=
  let savedCodeBlock := match prevFrame with
    | some prev =>
      match prev.calleeCodeBlock with
      | some parentCB => some parentCB
      | none => f.savedCodeBlock
    | none => f.savedCodeBlock
  match savedCodeBlock, f.savedIP with
  | some cb, some ip => ⟨some cb, ip⟩
  | _, _ => ⟨none, 0⟩

/-- The frame-walking loop of `recordStackTrace` (source lines 462-484):
emit each frame's entry, adding the domain of every non-native entry;
`none` models a propagated domain-push allocation failure. -/
def captureLoop (env : Env) (orc : CaptureOracles) :
    List (Frame × Option Frame) → DomState → Option (List TraceEntry × DomState)
  | [], st => some ([], st)
  | (f, prev) :: rest, st =>
    let entry := captureEntry f prev
    match entry.codeBlock with
    | some cb =>
      match addDomain env orc cb st with
      | some st' =>
        (captureLoop env orc rest st').map fun p => (entry :: p.1, p.2)
      | none => none
    | none =>
      (captureLoop env orc rest st).map fun p => (entry :: p.1, p.2)

/-- Model of `JSError::recordStackTrace` (source lines 405-501): no-op success when
the trace is already set, or when capturing from an unresolvable top
frame; then the synthetic top entry (when not skipped), the frame walk,
dropping the trailing end-marker entry, and publishing `stacktrace_`,
the best-effort `funcNames_` and the deduplicated `domains_`. Allocation
failures of the domain structures propagate as exceptions leaving the
error unchanged; name-storage failures are swallowed. -/
def recordStackTrace (env : Env) (orc : CaptureOracles) (frames : List Frame)
    (e : JSError) (skipTopFrame : Bool) (codeBlock : Option Nat) (ip : Nat) :
    ExecutionStatus × JSError :=
  if e.stacktrace_.isSome then (.returned, e)
  else if !skipTopFrame && codeBlock.isNone &&
      (frames.head?.bind Frame.calleeCodeBlock).isSome then (.returned, e)
  else if !orc.domainsCreateOk then (.exception, e)
  else
    let topStep : Option (List TraceEntry × DomState) :=
      if !skipTopFrame then
        match codeBlock with
        | some cb =>
          match addDomain env orc cb ⟨[], 0⟩ with
          | some st' => some ([⟨some cb, ip⟩], st')
          | none => none
        | none => some ([⟨none, 0⟩], ⟨[], 0⟩)
      else some ([], ⟨[], 0⟩)
    match topStep with
    | none => (.exception, e)
    | some (topEntries, st1) =>
      match captureLoop env orc (framePairs frames) st1 with
      | none => (.exception, e)
      | some (entries, st2) =>
        let stack := (topEntries ++ entries).dropLast
        let funcNames := getCallStackFunctionNames env orc skipTopFrame frames
        (.returned,
          { e with
            stacktrace_ := some stack
            funcNames_ := funcNames
            domains_ := some st2.domains })

/-- One object on the receiver's prototype chain, as
`getErrorFromStackTarget` observes it: an optional
`[[InternalPropertyCapturedError]]` slot value and, when the object is
itself a `JSError`, that error. -/
structure ChainNode where
  capturedErrorSlot : Option JSError
  asJSError : Option JSError

/-- Model of `getErrorFromStackTarget` (source lines 61-86): walk the prototype
chain from the receiver; at each object prefer the captured-error slot,
then the object itself when it is a `JSError`; `none` when the chain (or
a null receiver) yields neither. -/
def getErrorFromStackTarget : List ChainNode → Option JSError
  | [] => none
  | n :: rest =>
    match n.capturedErrorSlot with
    | some e => some e
    | none =>
      match n.asJSError with
      | some e => some e
      | none => getErrorFromStackTarget rest

/-- The receiver's externally visible `stack` property: still the lazy
get/set accessor pair, or already a plain stored data value. -/
inductive StackProp where
  | accessor
  | data (v : Val)
deriving DecidableEq, Repr

/-- The mutable state a `stack` read can observe and change: the
runtime-wide `formattingStackTrace` re-entrancy flag and the receiver's
`stack` property. -/
structure RState where
  formattingStackTrace : Bool
  stackProp : StackProp
deriving DecidableEq, Repr

/-- The receiver of a `stack` read: its prototype chain (for error
resolution) and its observable name/message properties (the receiver, not
the resolved error, is what default synthesis stringifies). -/
structure Target where
  chain : List ChainNode
  asErrObj : ErrObj

/-- A user `prepareStackTrace` hook: invoked with the constructed
call-site array (the receiver argument is closed over by the function
value) and the current state; it may run arbitrary code, so it returns a
new state and a value or a throw. -/
def HookFn : Type :=
  List CallSite → RState → RState × Except Exc Val

/-- Result of looking up `Error.prepareStackTrace` (source lines
113-126): the lookup threw, the value is not callable (or absent), or it
is a callable hook. -/
inductive PrepareLookup where
  | exc (t : Exc)
  | notCallable
  | hook (f : HookFn)

/-- Environment of one `errorStackGetter` invocation: the hook lookup
result, the allocation outcomes (call-site array, stack string creation,
property redefinition), the native-depth state, and the debug tables. -/
structure GetterEnv where
  prepare : PrepareLookup
  callSitesAllocOk : Bool
  strCreateOk : Bool
  defineOk : Bool
  depthOverflow : Bool
  env : Env

/-- The predefined replacement used when creating the stack string fails
(`Predefined::stacktraceTooLong`; exact text not claim-relevant). -/
def stacktraceTooLongName : String := "Stacktrace too long"

/-- The final redefinition of `stack` to a plain non-enumerable data
property (source lines 168-179): on success the property stores the
computed value and that value is returned; a failed redefinition
propagates the exception and leaves the property as it was. -/
def defineStackValue (genv : GetterEnv) (s : RState) (v : Val) :
    RState × Except Exc Val :=
  if genv.defineOk then ({ s with stackProp := .data v }, .ok v)
  else (s, .error .allocFailure)

/-- The default-synthesis arm of the getter (source lines 149-166):
construct the stack string; if creating the string primitive fails,
substitute the predefined too-long placeholder and clear the throw; then
redefine the property. -/
def errorStackDefault (genv : GetterEnv) (errorHandle : JSError)
    (target : ErrObj) (s : RState) : RState × Except Exc Val :=
  match constructStackTraceString genv.env genv.depthOverflow errorHandle target with
  | .error exc => (s, .error exc)
  | .ok stackStr =>
    let v : Val := if genv.strCreateOk then .str stackStr
      else .str stacktraceTooLongName
    defineStackValue genv s v

/-- Model of `errorStackGetter` (source lines 88-180): resolve the captured error
from the receiver (`undefined` when none); return the empty string — with
no property redefinition — when no trace was ever captured; otherwise
invoke the `prepareStackTrace` hook when present and the runtime is not
already formatting (setting the re-entrancy flag for the duration and
clearing it on every exit path, per the scope guard of source lines
128-132), and fall back to default synthesis otherwise; finally redefine
`stack` to the computed value. -/
def errorStackGetter (genv : GetterEnv) (target : Option Target)
    (s : RState) : RState × Except Exc Val :=
  match target with
  | none => (s, .ok .undefined)
  | some tgt =>
    match getErrorFromStackTarget tgt.chain with
    | none => (s, .ok .undefined)
    | some errorHandle =>
      match errorHandle.stacktrace_ with
      | none => (s, .ok (.str ""))
      | some _ =>
        match genv.prepare with
        | .exc t => (s, .error t)
        | .hook f =>
          if !s.formattingStackTrace then
            if !genv.callSitesAllocOk then
              ({ s with formattingStackTrace := false }, .error .allocFailure)
            else
              let callSites := constructCallSitesArray errorHandle
              let step := f callSites { s with formattingStackTrace := true }
              let s2 := { step.1 with formattingStackTrace := false }
              match step.2 with
              | .error t => (s2, .error t)
              | .ok v => defineStackValue genv s2 v
          else errorStackDefault genv errorHandle tgt.asErrObj s
        | .notCallable => errorStackDefault genv errorHandle tgt.asErrObj s

/-- A read of the `stack` property through the object system: a data
property yields the stored value with no subsystem code running; the lazy
accessor invokes `errorStackGetter`. (This dispatch is the property-system
collaborator's behavior, against which the accessor-to-value transition is
observed.) -/
def readStack (genv : GetterEnv) (target : Option Target) (s : RState) :
    RState × Except Exc Val :=
  match s.stackProp with
  | .data v => (s, .ok v)
  | .accessor => errorStackGetter genv target s

/-! ## Sample environments used by witnesses -/

/-- A trivial debug environment: no debug info, empty names and URLs. -/
def sampleEnv : Env :=
  ⟨fun _ _ => none, fun _ => 0, fun _ => 0, fun _ => "", fun _ => "", fun _ => none, fun _ => 0⟩

/-- Allocation oracles where every allocation succeeds. -/
def sampleOracles : CaptureOracles :=
  ⟨true, fun _ => true, true, fun _ => true⟩

/-! ## C8: Error.prototype.toString collapses empty parts -/

/-- C8: `JSError::toString` concatenates the resolved name and message
with `": "`, collapsing empty parts: an empty name yields the message, an
empty message yields the name, otherwise `name ++ ": " ++ message`; in
particular the four concrete cases of the claim. -/
theorem toString_collapses_empty_parts :
    (∀ nm ms : String,
      JSError.toString (.mk (.ok (.str nm)) (.ok (.str ms))) =
        .ok (if nm = "" then ms else if ms = "" then nm else nm ++ ": " ++ ms)) ∧
    JSError.toString (.mk (.ok (.str "")) (.ok (.str "m"))) = .ok "m" ∧
    JSError.toString (.mk (.ok (.str "E")) (.ok (.str ""))) = .ok "E" ∧
    JSError.toString (.mk (.ok (.str "E")) (.ok (.str "m"))) = .ok "E: m" ∧
    JSError.toString (.mk (.ok (.str "")) (.ok (.str ""))) = .ok "" := by
  refine ⟨fun nm ms => ?_, rfl, rfl, rfl, rfl⟩
  by_cases h1 : nm = "" <;> by_cases h2 : ms = "" <;>
    simp [JSError.toString, ErrObj.nameProp, ErrObj.msgProp, toString_RJS, h1, h2]

/-! ## C2: recordStackTrace is a no-op on an already-traced error -/

/-- C2: when `stacktrace_` is already set, `recordStackTrace` returns
success immediately and the error object — trace, function names and
domains — is exactly the one passed in. -/
theorem recordStackTrace_noop_when_traced (env : Env) (orc : CaptureOracles)
    (frames : List Frame) (e : JSError) (skipTopFrame : Bool)
    (codeBlock : Option Nat) (ip : Nat) (tr : List TraceEntry)
    (h : e.stacktrace_ = some tr) :
    recordStackTrace env orc frames e skipTopFrame codeBlock ip = (.returned, e) := by
  simp [recordStackTrace, h]

/-- Witness for C2 at a concrete already-traced error. -/
theorem recordStackTrace_noop_when_traced_witness :
    recordStackTrace sampleEnv sampleOracles []
      ⟨some [⟨some 1, 2⟩], some [.str "f"], some [0], 0, true⟩ false none 0 =
      (.returned, ⟨some [⟨some 1, 2⟩], some [.str "f"], some [0], 0, true⟩) :=
  recordStackTrace_noop_when_traced sampleEnv sampleOracles [] _ false none 0
    [⟨some 1, 2⟩] rfl

/-! ## C7: frame trimming and the call-site projector -/

/-- A successful scan yields an index within the remaining list. -/
theorem findCodeBlockIndex_succ_le (cb : Nat) :
    ∀ (l : List TraceEntry) (k i : Nat),
      findCodeBlockIndex cb l k = some i → i + 1 ≤ k + l.length := by
  intro l
  induction l with
  | nil => intro k i h; simp [findCodeBlockIndex] at h
  | cons sti rest ih =>
    intro k i h
    by_cases hcb : sti.codeBlock = some cb
    · simp only [findCodeBlockIndex, if_pos hcb, Option.some.injEq] at h
      subst h
      simp only [List.length_cons]
      omega
    · simp only [findCodeBlockIndex, if_neg hcb] at h
      have := ih (k + 1) i h
      simp only [List.length_cons]
      omega

/-- C7: `popFramesUntilInclusive` sets `firstExposedFrameIndex_` to one
past the first (innermost-first) entry whose code block is the sentinel's
leaf code block, and to `trace.length` (hiding everything) when no code
block resolves or no entry matches; the index never exceeds the trace
length; and the call-site projector yields exactly
`trace.length - firstExposedFrameIndex_` descriptors, with no 100-frame
truncation for any exposed index `k ≤ trace.length`. -/
theorem popFrames_trims_and_projector_counts (e : JSError) (c : Callable)
    (tr : List TraceEntry) (h : e.stacktrace_ = some tr) :
    (popFramesUntilInclusive e c).stacktrace_ = some tr ∧
    (∀ cb i, getLeafCodeBlock c = some cb → findCodeBlockIndex cb tr 0 = some i →
      (popFramesUntilInclusive e c).firstExposedFrameIndex_ = i + 1) ∧
    (getLeafCodeBlock c = none →
      (popFramesUntilInclusive e c).firstExposedFrameIndex_ = tr.length) ∧
    (∀ cb, getLeafCodeBlock c = some cb → findCodeBlockIndex cb tr 0 = none →
      (popFramesUntilInclusive e c).firstExposedFrameIndex_ = tr.length) ∧
    (popFramesUntilInclusive e c).firstExposedFrameIndex_ ≤ tr.length ∧
    (constructCallSitesArray (popFramesUntilInclusive e c)).length =
      tr.length - (popFramesUntilInclusive e c).firstExposedFrameIndex_ ∧
    (∀ k, k ≤ tr.length →
      (constructCallSitesArray
        { e with stacktrace_ := some tr, firstExposedFrameIndex_ := k }).length =
        tr.length - k) := by
  have hproj : ∀ k, (constructCallSitesArray
      { e with stacktrace_ := some tr, firstExposedFrameIndex_ := k }).length =
      tr.length - k := by
    intro k
    simp [constructCallSitesArray]
  match hleaf : getLeafCodeBlock c with
  | none =>
    have hpop : popFramesUntilInclusive e c =
        { e with stacktrace_ := some tr, firstExposedFrameIndex_ := tr.length } := by
      simp [popFramesUntilInclusive, h, hleaf]
    refine ⟨by rw [hpop], ?_, fun _ => by rw [hpop], ?_, ?_, ?_, fun k _ => hproj k⟩
    · intro cb i hcb
      exact absurd hcb (by simp)
    · intro cb hcb
      exact absurd hcb (by simp)
    · rw [hpop]
    · rw [hpop]; exact hproj tr.length
  | some cb0 =>
    match hfind : findCodeBlockIndex cb0 tr 0 with
    | some i0 =>
      have hpop : popFramesUntilInclusive e c =
          { e with stacktrace_ := some tr, firstExposedFrameIndex_ := i0 + 1 } := by
        simp [popFramesUntilInclusive, h, hleaf, hfind]
      have hle : i0 + 1 ≤ tr.length := by
        have := findCodeBlockIndex_succ_le cb0 tr 0 i0 hfind
        omega
      refine ⟨by rw [hpop], ?_, ?_, ?_, ?_, ?_, fun k _ => hproj k⟩
      · intro cb i hcb hfi
        injection hcb with hcb
        subst hcb
        rw [hfind] at hfi
        injection hfi with hfi
        subst hfi
        rw [hpop]
      · intro hcb
        exact absurd hcb (by simp)
      · intro cb hcb hfi
        injection hcb with hcb
        subst hcb
        rw [hfind] at hfi
        exact absurd hfi (by simp)
      · rw [hpop]; exact hle
      · rw [hpop]; exact hproj (i0 + 1)
    | none =>
      have hpop : popFramesUntilInclusive e c =
          { e with stacktrace_ := some tr, firstExposedFrameIndex_ := tr.length } := by
        simp [popFramesUntilInclusive, h, hleaf, hfind]
      refine ⟨by rw [hpop], ?_, ?_, fun _ _ _ => by rw [hpop], ?_, ?_, fun k _ => hproj k⟩
      · intro cb i hcb hfi
        injection hcb with hcb
        subst hcb
        rw [hfind] at hfi
        exact absurd hfi (by simp)
      · intro hcb
        exact absurd hcb (by simp)
      · rw [hpop]
      · rw [hpop]; exact hproj tr.length

/-- Witness for C7: a bound sentinel whose leaf code block matches trace
index 1, so the exposed index becomes 2 and the projector yields 1
descriptor. -/
theorem popFrames_trims_witness :
    (popFramesUntilInclusive
        ⟨some [⟨some 7, 0⟩, ⟨some 3, 1⟩, ⟨some 9, 2⟩], none, none, 0, true⟩
        (.bound (some (.jsFunction 3)))).firstExposedFrameIndex_ = 2 ∧
    (constructCallSitesArray
      (popFramesUntilInclusive
        ⟨some [⟨some 7, 0⟩, ⟨some 3, 1⟩, ⟨some 9, 2⟩], none, none, 0, true⟩
        (.bound (some (.jsFunction 3))))).length = 1 := by
  have hmain := popFrames_trims_and_projector_counts
    ⟨some [⟨some 7, 0⟩, ⟨some 3, 1⟩, ⟨some 9, 2⟩], none, none, 0, true⟩
    (.bound (some (.jsFunction 3))) [⟨some 7, 0⟩, ⟨some 3, 1⟩, ⟨some 9, 2⟩] rfl
  have hfei := hmain.2.1 3 1 rfl rfl
  refine ⟨hfei, ?_⟩
  have hcount := hmain.2.2.2.2.2.1
  rw [hfei] at hcount
  simpa using hcount

/-! ## C3: 100-frame truncation of the default string -/

/-- Below `PRINT_HEAD`, the loop renders every frame in order. -/
theorem framesLoopItems_low (max : Nat) (hmax : PRINT_HEAD + PRINT_TAIL < max) :
    ∀ d i, i + d = PRINT_HEAD →
      framesLoopItems max i =
        ((List.range' i d).map LineItem.frame) ++ framesLoopItems max PRINT_HEAD := by
  intro d
  induction d with
  | zero =>
    intro i hi
    have hip : i = PRINT_HEAD := by omega
    subst hip
    simp
  | succ d ih =>
    intro i hi
    have hPH : PRINT_HEAD = 50 := rfl
    have hPT : PRINT_TAIL = 50 := rfl
    rw [framesLoopItems, if_pos (show i < max by omega),
      if_neg (show ¬(max > PRINT_HEAD + PRINT_TAIL ∧ i = PRINT_HEAD) by omega),
      if_neg (show ¬(max > PRINT_HEAD + PRINT_TAIL ∧ PRINT_HEAD < i ∧
        i < max - PRINT_TAIL) by omega),
      ih (i + 1) (by omega), List.range'_succ i d 1]
    simp

/-- From `max - PRINT_TAIL` on, the loop renders every remaining frame. -/
theorem framesLoopItems_high (max : Nat) :
    ∀ d i, max - PRINT_TAIL ≤ i → i + d = max →
      framesLoopItems max i = (List.range' i d).map LineItem.frame := by
  intro d
  induction d with
  | zero =>
    intro i h1 h2
    rw [framesLoopItems, if_neg (show ¬(i < max) by omega)]
    simp
  | succ d ih =>
    intro i h1 h2
    have hPH : PRINT_HEAD = 50 := rfl
    have hPT : PRINT_TAIL = 50 := rfl
    rw [framesLoopItems, if_pos (show i < max by omega),
      if_neg (show ¬(max > PRINT_HEAD + PRINT_TAIL ∧ i = PRINT_HEAD) by omega),
      if_neg (show ¬(max > PRINT_HEAD + PRINT_TAIL ∧ PRINT_HEAD < i ∧
        i < max - PRINT_TAIL) by omega),
      ih (i + 1) (by omega) (by omega), List.range'_succ i d 1]
    simp

/-- With more than `PRINT_HEAD + PRINT_TAIL` exposed frames, the loop
emits exactly the first `PRINT_HEAD` frames, one skip marker counting
`max - PRINT_HEAD - PRINT_TAIL` frames, and the last `PRINT_TAIL`
frames; no middle frame is ever rendered. -/
theorem framesLoopItems_truncation (max : Nat)
    (hmax : max > PRINT_HEAD + PRINT_TAIL) :
    framesLoopItems max 0 =
      ((List.range' 0 PRINT_HEAD).map LineItem.frame) ++
        LineItem.skip (max - PRINT_HEAD - PRINT_TAIL) ::
          ((List.range' (max - PRINT_TAIL) PRINT_TAIL).map LineItem.frame) := by
  have hPH : PRINT_HEAD = 50 := rfl
  have hPT : PRINT_TAIL = 50 := rfl
  rw [framesLoopItems_low max hmax PRINT_HEAD 0 (by omega)]
  congr 1
  rw [framesLoopItems, if_pos (show PRINT_HEAD < max by omega), if_pos ⟨hmax, rfl⟩]
  congr 1
  by_cases hc : PRINT_HEAD + 1 < max - PRINT_TAIL
  · rw [framesLoopItems, if_pos (show PRINT_HEAD + 1 < max by omega),
      if_neg (show ¬(max > PRINT_HEAD + PRINT_TAIL ∧
        PRINT_HEAD + 1 = PRINT_HEAD) by omega),
      if_pos (show max > PRINT_HEAD + PRINT_TAIL ∧ PRINT_HEAD < PRINT_HEAD + 1 ∧
        PRINT_HEAD + 1 < max - PRINT_TAIL from ⟨hmax, by omega, hc⟩),
      framesLoopItems_high max (PRINT_TAIL - 1) (max - PRINT_TAIL + 1)
        (by omega) (by omega)]
    have hsplit : List.range' (max - PRINT_TAIL) PRINT_TAIL =
        (max - PRINT_TAIL) :: List.range' (max - PRINT_TAIL + 1) (PRINT_TAIL - 1) :=
      List.range'_succ (max - PRINT_TAIL) (PRINT_TAIL - 1) 1
    rw [hsplit]
    simp
  · have heq : PRINT_HEAD + 1 = max - PRINT_TAIL := by omega
    rw [heq, framesLoopItems_high max PRINT_TAIL (max - PRINT_TAIL)
      (le_refl _) (by omega)]

/-- C3: when more than `PRINT_HEAD + PRINT_TAIL = 100` frames are
exposed, the synthesized stack string is the header followed by location
lines for exactly the first 50 and the last 50 exposed frames and exactly
one `"... skipping N frames"` marker with `N = total - 100`; no line (and
hence no location) is produced for any skipped middle frame. -/
theorem stackString_truncation (env : Env) (e : JSError) (target : ErrObj)
    (tr : List TraceEntry) (header : String)
    (h : e.stacktrace_ = some tr)
    (hh : stackHeader target = .ok header)
    (hmax : tr.length - e.firstExposedFrameIndex_ > PRINT_HEAD + PRINT_TAIL) :
    constructStackTraceString env false e target =
      .ok (header ++ String.join
        ((((List.range' 0 PRINT_HEAD).map LineItem.frame) ++
          LineItem.skip
            ((tr.length - e.firstExposedFrameIndex_) - PRINT_HEAD - PRINT_TAIL) ::
            ((List.range' ((tr.length - e.firstExposedFrameIndex_) - PRINT_TAIL)
              PRINT_TAIL).map LineItem.frame)).map (lineText env e))) := by
  simp only [constructStackTraceString, h, hh, Option.getD_some, Bool.false_eq_true,
    if_false]
  rw [framesLoopItems_truncation _ hmax]

/-- Witness for C3: a 151-frame trace renders as the header, the first 50
frame lines, one `skip 51` marker, and the last 50 frame lines. -/
theorem stackString_truncation_witness :
    constructStackTraceString sampleEnv false
      ⟨some (List.replicate 151 ⟨none, 0⟩), none, none, 0, true⟩
      (.mk (.ok (.str "E")) (.ok (.str ""))) =
      .ok ("E" ++ String.join
        ((((List.range' 0 50).map LineItem.frame) ++
          LineItem.skip 51 ::
            ((List.range' 101 50).map LineItem.frame)).map
          (lineText sampleEnv
            ⟨some (List.replicate 151 ⟨none, 0⟩), none, none, 0, true⟩))) :=
  stackString_truncation sampleEnv
    ⟨some (List.replicate 151 ⟨none, 0⟩), none, none, 0, true⟩
    (.mk (.ok (.str "E")) (.ok (.str ""))) (List.replicate 151 ⟨none, 0⟩) "E"
    rfl rfl (by decide)

/-! ## C5: failure handling of target.toString() in default synthesis -/

/-- The frame-lines part of the synthesized stack string. -/
def framesTail (env : Env) (e : JSError) : String :=
  String.join
    ((framesLoopItems ((e.stacktrace_.getD []).length - e.firstExposedFrameIndex_) 0).map
      (lineText env e))

/-- A catchable thrown object whose own stringification succeeds yields
the wrapped description. -/
theorem stackHeader_of_catchable_obj (target : ErrObj) (o : ErrObj) (s : String)
    (ht : JSError.toString target = .error (.obj o false))
    (hs : JSError.toString o = .ok s) :
    stackHeader target = .ok ("<while converting error to string: " ++ s ++ ">") := by
  simp [stackHeader, ht, hs, isUncatchableError]

/-- A catchable thrown non-object is never retried: the generic
`"<error>"` description is substituted. -/
theorem stackHeader_of_catchable_nonobj (target : ErrObj)
    (ht : JSError.toString target = .error .nonObj) :
    stackHeader target = .ok "<error>" := by
  simp [stackHeader, ht, isUncatchableError]

/-- A catchable thrown object whose own stringification fails catchably
falls back to the generic `"<error>"` description. -/
theorem stackHeader_of_catchable_obj_retry_fails (target : ErrObj) (o : ErrObj)
    (t2 : Thrown) (ht : JSError.toString target = .error (.obj o false))
    (hs : JSError.toString o = .error t2) (hu : isUncatchableError t2 = false) :
    stackHeader target = .ok "<error>" := by
  simp [stackHeader, ht, hs, isUncatchableError, hu]
  exact hu

/-- An uncatchable throw from `target.toString()` propagates unmodified. -/
theorem stackHeader_of_uncatchable (target : ErrObj) (t : Thrown)
    (ht : JSError.toString target = .error t) (hu : isUncatchableError t = true) :
    stackHeader target = .error t := by
  simp [stackHeader, ht, hu]

/-- An uncatchable throw from stringifying the thrown object propagates. -/
theorem stackHeader_of_retry_uncatchable (target : ErrObj) (o : ErrObj)
    (t2 : Thrown) (ht : JSError.toString target = .error (.obj o false))
    (hs : JSError.toString o = .error t2) (hu : isUncatchableError t2 = true) :
    stackHeader target = .error t2 := by
  simp [stackHeader, ht, hs, isUncatchableError, hu]
  exact hu

/-- Counterexample to C5 as stated: `target.toString()` throws the
catchable non-object value, yet the synthesized string is the literal
`"<error>"`, which does not begin with
`"<while converting error to string: "`. -/
theorem stackString_catchable_nonobj_counterexample :
    JSError.toString (ErrObj.mk (.exc .nonObj) (.ok (.str "m"))) = .error .nonObj ∧
    isUncatchableError .nonObj = false ∧
    constructStackTraceString sampleEnv false ⟨some [⟨none, 0⟩], none, none, 1, true⟩
      (.mk (.exc .nonObj) (.ok (.str "m"))) = .ok "<error>" ∧
    ("<while converting error to string: ".data.isPrefixOf "<error>".data) = false := by
  have hloop : framesLoopItems 0 0 = [] := by
    rw [framesLoopItems]
    simp
  refine ⟨rfl, rfl, ?_, by decide⟩
  have hh : stackHeader (.mk (.exc .nonObj) (.ok (.str "m"))) = .ok "<error>" := rfl
  simp [constructStackTraceString, hh, hloop, String.join]

/-- C5 (amended): in default synthesis, if `target.toString()` throws a
catchable *object* `v` whose own stringification succeeds with string
`s`, the synthesized string begins with
`"<while converting error to string: " ++ s ++ ">"` (followed by the
frame lines); if the catchable thrown value is not an object, or
stringifying it fails catchably, the literal `"<error>"` is substituted
after clearing the failure; and uncatchable failures (of the original
`toString` or of the retry) propagate unmodified out of formatting. -/
theorem stackString_failure_handling (env : Env) (e : JSError) (target : ErrObj)
    (t : Thrown) (ht : JSError.toString target = .error t) :
    (∀ o s, t = .obj o false → JSError.toString o = .ok s →
      constructStackTraceString env false e target =
        .ok ("<while converting error to string: " ++ s ++ ">" ++ framesTail env e)) ∧
    (t = .nonObj →
      constructStackTraceString env false e target =
        .ok ("<error>" ++ framesTail env e)) ∧
    (∀ o t2, t = .obj o false → JSError.toString o = .error t2 →
      isUncatchableError t2 = false →
      constructStackTraceString env false e target =
        .ok ("<error>" ++ framesTail env e)) ∧
    (isUncatchableError t = true →
      constructStackTraceString env false e target = .error (.thrown t)) ∧
    (∀ o t2, t = .obj o false → JSError.toString o = .error t2 →
      isUncatchableError t2 = true →
      constructStackTraceString env false e target = .error (.thrown t2)) := by
  refine ⟨?_, ?_, ?_, ?_, ?_⟩
  · intro o s hto hs
    subst hto
    simp [constructStackTraceString, stackHeader_of_catchable_obj target o s ht hs,
      framesTail]
  · intro hto
    subst hto
    simp [constructStackTraceString, stackHeader_of_catchable_nonobj target ht,
      framesTail]
  · intro o t2 hto hs hu
    subst hto
    simp [constructStackTraceString,
      stackHeader_of_catchable_obj_retry_fails target o t2 ht hs hu, framesTail]
  · intro hu
    simp [constructStackTraceString, stackHeader_of_uncatchable target t ht hu]
  · intro o t2 hto hs hu
    subst hto
    simp [constructStackTraceString,
      stackHeader_of_retry_uncatchable target o t2 ht hs hu]

/-- Witness for the amended C5: a catchable thrown object stringifying to
`"T: t"` produces the wrapped description. -/
theorem stackString_failure_handling_witness :
    constructStackTraceString sampleEnv false ⟨some [⟨none, 0⟩], none, none, 1, true⟩
      (.mk (.exc (.obj (.mk (.ok (.str "T")) (.ok (.str "t"))) false)) (.ok (.str "x"))) =
      .ok ("<while converting error to string: " ++ "T: t" ++ ">" ++
        framesTail sampleEnv ⟨some [⟨none, 0⟩], none, none, 1, true⟩) :=
  (stackString_failure_handling sampleEnv
    ⟨some [⟨none, 0⟩], none, none, 1, true⟩
    (.mk (.exc (.obj (.mk (.ok (.str "T")) (.ok (.str "t"))) false)) (.ok (.str "x")))
    (.obj (.mk (.ok (.str "T")) (.ok (.str "t"))) false) rfl).1
    (.mk (.ok (.str "T")) (.ok (.str "t"))) "T: t" rfl rfl

/-! ## Getter helper lemmas (shared by the `stack`-property claims) -/

/-- A successful `defineStackValue` stores exactly the returned value. -/
theorem defineStackValue_ok_state (genv : GetterEnv) (s s1 : RState) (v0 v : Val)
    (h : defineStackValue genv s v0 = (s1, .ok v)) :
    s1.stackProp = .data v := by
  cases hd : genv.defineOk with
  | true =>
    simp [defineStackValue, hd] at h
    obtain ⟨h1, h2⟩ := h
    subst h2
    subst h1
    rfl
  | false => simp [defineStackValue, hd] at h

/-- The `defineStackValue` step either leaves the property alone (failed
redefinition) or stores the value it returns successfully. -/
theorem defineStackValue_state_cases (genv : GetterEnv) (s : RState) (v : Val) :
    (defineStackValue genv s v).1.stackProp = s.stackProp ∨
    ((defineStackValue genv s v).2 = .ok v ∧
      (defineStackValue genv s v).1.stackProp = .data v) := by
  cases hd : genv.defineOk with
  | true => right; simp [defineStackValue, hd]
  | false => left; simp [defineStackValue, hd]

/-- The `defineStackValue` step never touches the re-entrancy flag. -/
theorem defineStackValue_formatting (genv : GetterEnv) (s : RState) (v : Val) :
    (defineStackValue genv s v).1.formattingStackTrace = s.formattingStackTrace := by
  cases hd : genv.defineOk <;> simp [defineStackValue, hd]

/-- A successful default-synthesis arm stores exactly the value it
returns. -/
theorem errorStackDefault_ok_state (genv : GetterEnv) (e : JSError)
    (target : ErrObj) (s s1 : RState) (v : Val)
    (h : errorStackDefault genv e target s = (s1, .ok v)) :
    s1.stackProp = .data v := by
  unfold errorStackDefault at h
  cases hc : constructStackTraceString genv.env genv.depthOverflow e target with
  | error exc => rw [hc] at h; simp at h
  | ok str =>
    rw [hc] at h
    exact defineStackValue_ok_state genv s s1 _ v h

/-- The default-synthesis arm either leaves the property alone or stores
the value it returns successfully. -/
theorem errorStackDefault_state_cases (genv : GetterEnv) (e : JSError)
    (target : ErrObj) (s : RState) :
    (errorStackDefault genv e target s).1.stackProp = s.stackProp ∨
    ∃ v, (errorStackDefault genv e target s).2 = .ok v ∧
      (errorStackDefault genv e target s).1.stackProp = .data v := by
  unfold errorStackDefault
  cases hc : constructStackTraceString genv.env genv.depthOverflow e target with
  | error exc => left; rfl
  | ok str =>
    rcases defineStackValue_state_cases genv s
      (if genv.strCreateOk then Val.str str else Val.str stacktraceTooLongName)
      with h | h
    · left; exact h
    · right; exact ⟨_, h.1, h.2⟩

/-- The default-synthesis arm never touches the re-entrancy flag. -/
theorem errorStackDefault_formatting (genv : GetterEnv) (e : JSError)
    (target : ErrObj) (s : RState) :
    (errorStackDefault genv e target s).1.formattingStackTrace =
      s.formattingStackTrace := by
  unfold errorStackDefault
  cases hc : constructStackTraceString genv.env genv.depthOverflow e target with
  | error exc => rfl
  | ok str => exact defineStackValue_formatting genv s _

/-- Reading a data-valued `stack` property returns the stored value and
runs no getter code. -/
theorem readStack_data (genv : GetterEnv) (tgt : Option Target) (s : RState)
    (v : Val) (h : s.stackProp = .data v) :
    readStack genv tgt s = (s, .ok v) := by
  obtain ⟨fm, sp⟩ := s
  cases sp with
  | accessor => simp at h
  | data v0 =>
    simp at h
    subst h
    rfl

/-! ## C10: non-error receivers read `stack` as undefined -/

/-- A chain without captured-error slots or `JSError`s resolves to no
error. -/
theorem getErrorFromStackTarget_none (chain : List ChainNode)
    (h : ∀ n ∈ chain, n.capturedErrorSlot = none ∧ n.asJSError = none) :
    getErrorFromStackTarget chain = none := by
  induction chain with
  | nil => rfl
  | cons n rest ih =>
    have hn := h n (by simp)
    simp [getErrorFromStackTarget, hn.1, hn.2]
    exact ih fun m hm => h m (by simp [hm])

/-- C10: when the receiver is not an object, or no object on its
prototype chain carries the captured-error slot or is itself a `JSError`,
the getter returns `undefined`, does not throw, and leaves the state — in
particular the receiver's `stack` property — untouched. -/
theorem errorStackGetter_no_error_undefined (genv : GetterEnv)
    (tgt : Option Target) (s : RState)
    (h : ∀ t, tgt = some t →
      ∀ n ∈ t.chain, n.capturedErrorSlot = none ∧ n.asJSError = none) :
    errorStackGetter genv tgt s = (s, .ok .undefined) := by
  cases tgt with
  | none => rfl
  | some t =>
    have hc := getErrorFromStackTarget_none t.chain (h t rfl)
    simp [errorStackGetter, hc]

/-- Witness for C10: a one-object chain with neither slot nor error. -/
theorem errorStackGetter_no_error_undefined_witness :
    errorStackGetter ⟨.notCallable, true, true, true, false, sampleEnv⟩
      (some ⟨[⟨none, none⟩], .mk (.ok .undefined) (.ok .undefined)⟩)
      ⟨false, .accessor⟩ = (⟨false, .accessor⟩, .ok .undefined) :=
  errorStackGetter_no_error_undefined _ _ _
    (by
      intro t ht n hn
      cases ht
      simp at hn
      subst hn
      exact ⟨rfl, rfl⟩)

/-! ## C1: one-shot accessor-to-value transition of `stack` -/

/-- C1: for a receiver resolving to an error with a captured trace, a
first successful read through the lazy accessor redefines `stack` to the
computed value, and a second read returns that identical value with the
state unchanged — no capture or formatting logic runs again. -/
theorem stack_one_shot_transition (genv : GetterEnv) (tgt : Target)
    (s s1 : RState) (e : JSError) (tr : List TraceEntry) (v : Val)
    (he : getErrorFromStackTarget tgt.chain = some e)
    (htr : e.stacktrace_ = some tr)
    (hacc : s.stackProp = .accessor)
    (hread : readStack genv (some tgt) s = (s1, .ok v)) :
    s1.stackProp = .data v ∧ readStack genv (some tgt) s1 = (s1, .ok v) := by
  have hdata : s1.stackProp = .data v := by
    obtain ⟨fm, sp⟩ := s
    cases sp with
    | data v0 => simp at hacc
    | accessor =>
      simp only [readStack] at hread
      simp only [errorStackGetter, he, htr] at hread
      cases hp : genv.prepare with
      | exc t => rw [hp] at hread; simp at hread
      | notCallable =>
        rw [hp] at hread
        exact errorStackDefault_ok_state genv e tgt.asErrObj _ s1 v hread
      | hook f =>
        rw [hp] at hread
        cases fm with
        | true =>
          simp only [Bool.not_true, Bool.false_eq_true, if_false] at hread
          exact errorStackDefault_ok_state genv e tgt.asErrObj _ s1 v hread
        | false =>
          simp only [Bool.not_false, if_true] at hread
          cases hcs : genv.callSitesAllocOk with
          | false => simp [hcs] at hread
          | true =>
            simp only [hcs, Bool.not_true, Bool.false_eq_true, if_false] at hread
            cases hr2 : (f (constructCallSitesArray e)
                { formattingStackTrace := true, stackProp := .accessor }).2 with
            | error t => rw [hr2] at hread; simp at hread
            | ok v0 =>
              rw [hr2] at hread
              exact defineStackValue_ok_state genv _ s1 v0 v hread
  exact ⟨hdata, readStack_data genv (some tgt) s1 v hdata⟩

/-- A getter environment with no hook installed and all allocations
succeeding. -/
def sampleGetterEnv : GetterEnv :=
  ⟨.notCallable, true, true, true, false, sampleEnv⟩

/-- Witness for C1: a concrete error with a one-frame trace; the first
read stores `"E: m\n    at anonymous (native)"` and the second read
returns it unchanged. -/
theorem stack_one_shot_transition_witness :
    ((⟨false, .data (.str "E: m\n    at anonymous (native)")⟩ : RState)).stackProp =
        .data (.str "E: m\n    at anonymous (native)") ∧
    readStack sampleGetterEnv
      (some ⟨[⟨none, some ⟨some [⟨none, 0⟩], none, none, 0, true⟩⟩],
        .mk (.ok (.str "E")) (.ok (.str "m"))⟩)
      ⟨false, .data (.str "E: m\n    at anonymous (native)")⟩ =
      (⟨false, .data (.str "E: m\n    at anonymous (native)")⟩,
        .ok (.str "E: m\n    at anonymous (native)")) := by
  refine stack_one_shot_transition sampleGetterEnv
    ⟨[⟨none, some ⟨some [⟨none, 0⟩], none, none, 0, true⟩⟩],
      .mk (.ok (.str "E")) (.ok (.str "m"))⟩
    ⟨false, .accessor⟩ _ ⟨some [⟨none, 0⟩], none, none, 0, true⟩ [⟨none, 0⟩] _
    rfl rfl rfl ?_
  have h1 : framesLoopItems 1 1 = [] := by
    rw [framesLoopItems]
    norm_num
  have h0 : framesLoopItems 1 0 = [LineItem.frame 0] := by
    rw [framesLoopItems]
    simp [PRINT_HEAD, PRINT_TAIL, h1]
  simp [readStack, errorStackGetter, errorStackDefault, constructStackTraceString,
    defineStackValue, sampleGetterEnv, sampleEnv, h0, lineText, frameLine,
    getFunctionNameAtIndex, getErrorFromStackTarget, stackHeader, JSError.toString,
    ErrObj.nameProp, ErrObj.msgProp, toString_RJS, String.join]
  decide

/-! ## C4: the prepareStackTrace re-entrancy guard -/

/-- The default-synthesis arm never reads the hook lookup result. -/
theorem errorStackDefault_no_prepare (genv : GetterEnv) (p : PrepareLookup) :
    errorStackDefault { genv with prepare := p } = errorStackDefault genv := by
  funext e target s
  rfl

/-- The getter always restores the re-entrancy flag to its entry value:
the guarded hook invocation clears it on every exit path (scope guard),
and every other path never touches it. -/
theorem errorStackGetter_formatting (genv : GetterEnv) (tgt : Option Target)
    (s : RState) :
    (errorStackGetter genv tgt s).1.formattingStackTrace =
      s.formattingStackTrace := by
  cases tgt with
  | none => rfl
  | some t =>
    simp only [errorStackGetter]
    repeat' split
    all_goals try rfl
    all_goals simp_all [errorStackDefault_formatting, defineStackValue_formatting]

/-- While a formatting call is already in progress, a hooked environment
behaves exactly as one with no hook installed: the nested read falls back
to default synthesis. -/
theorem errorStackGetter_flag_set_no_hook (genv : GetterEnv)
    (tgt : Option Target) (s : RState) (f : HookFn)
    (hf : genv.prepare = .hook f) (hfmt : s.formattingStackTrace = true) :
    errorStackGetter genv tgt s =
      errorStackGetter { genv with prepare := .notCallable } tgt s := by
  cases tgt with
  | none => rfl
  | some t =>
    simp [errorStackGetter, hf, hfmt, errorStackDefault_no_prepare]

/-- C4: with a hook installed, (a) while the runtime-wide formatting flag
is set, a read behaves exactly as if no hook were installed — the hook is
not invoked and default synthesis is used — and (b) the getter always
returns with the formatting flag equal to its entry value: the guarded
hook invocation clears it on every exit path (normal return or throw), so
a later top-level read can invoke the hook again. -/
theorem hook_reentrancy_guard (genv : GetterEnv) (tgt : Option Target)
    (s : RState) (f : HookFn) (hf : genv.prepare = .hook f) :
    (s.formattingStackTrace = true →
      errorStackGetter genv tgt s =
        errorStackGetter { genv with prepare := .notCallable } tgt s) ∧
    (errorStackGetter genv tgt s).1.formattingStackTrace =
      s.formattingStackTrace :=
  ⟨fun hfmt => errorStackGetter_flag_set_no_hook genv tgt s f hf hfmt,
    errorStackGetter_formatting genv tgt s⟩

/-- A concrete hook returning a fixed value. -/
def sampleHook : HookFn := fun _ s => (s, .ok (.str "hooked"))

/-- A getter environment with `sampleHook` installed. -/
def sampleGetterEnvHook : GetterEnv :=
  ⟨.hook sampleHook, true, true, true, false, sampleEnv⟩

/-- Witness for C4: with the formatting flag already set, the hooked
environment behaves like the hook-free one, and the flag survives. -/
theorem hook_reentrancy_guard_witness :
    (errorStackGetter sampleGetterEnvHook
        (some ⟨[⟨none, some ⟨some [⟨none, 0⟩], none, none, 0, true⟩⟩],
          .mk (.ok (.str "E")) (.ok (.str "m"))⟩) ⟨true, .accessor⟩ =
      errorStackGetter { sampleGetterEnvHook with prepare := .notCallable }
        (some ⟨[⟨none, some ⟨some [⟨none, 0⟩], none, none, 0, true⟩⟩],
          .mk (.ok (.str "E")) (.ok (.str "m"))⟩) ⟨true, .accessor⟩) ∧
    (errorStackGetter sampleGetterEnvHook
        (some ⟨[⟨none, some ⟨some [⟨none, 0⟩], none, none, 0, true⟩⟩],
          .mk (.ok (.str "E")) (.ok (.str "m"))⟩)
        ⟨true, .accessor⟩).1.formattingStackTrace = true := by
  have h := hook_reentrancy_guard sampleGetterEnvHook
    (some ⟨[⟨none, some ⟨some [⟨none, 0⟩], none, none, 0, true⟩⟩],
      .mk (.ok (.str "E")) (.ok (.str "m"))⟩) ⟨true, .accessor⟩ sampleHook rfl
  exact ⟨h.1 rfl, h.2⟩

/-! ## C9: empty-string read without a trace; transition only on
successful write-back -/

/-- C9: (a) when the resolved error has no captured trace, the read
yields the empty string — not `undefined`, not an exception — and the
state (hence the lazy accessor) is left untouched; (b) default synthesis
either leaves the `stack` property unchanged or stores exactly the value
it successfully returns — the transition happens only with a successful
write-back; (c) when the redefinition fails, the write-back and the whole
default arm propagate the exception with the property unchanged, so the
next read re-enters the accessor. -/
theorem stack_lazy_empty_and_write_back (genv : GetterEnv) :
    (∀ tgt s t e, tgt = some t → getErrorFromStackTarget t.chain = some e →
      e.stacktrace_ = none → errorStackGetter genv tgt s = (s, .ok (.str ""))) ∧
    (∀ e target s,
      (errorStackDefault genv e target s).1.stackProp = s.stackProp ∨
      ∃ v, (errorStackDefault genv e target s).2 = .ok v ∧
        (errorStackDefault genv e target s).1.stackProp = .data v) ∧
    (genv.defineOk = false →
      (∀ s v, defineStackValue genv s v = (s, .error .allocFailure)) ∧
      (∀ e target s str,
        constructStackTraceString genv.env genv.depthOverflow e target = .ok str →
        errorStackDefault genv e target s = (s, .error .allocFailure))) := by
  refine ⟨?_, ?_, ?_⟩
  · intro tgt s t e ht he htr
    subst ht
    simp [errorStackGetter, he, htr]
  · intro e target s
    exact errorStackDefault_state_cases genv e target s
  · intro hd
    have hdsv : ∀ s v, defineStackValue genv s v = (s, .error .allocFailure) := by
      intro s v
      simp [defineStackValue, hd]
    refine ⟨hdsv, ?_⟩
    intro e target s str hc
    unfold errorStackDefault
    rw [hc]
    exact hdsv s _

/-- A getter environment whose property redefinition fails. -/
def sampleGetterEnvNoDefine : GetterEnv :=
  ⟨.notCallable, true, true, false, false, sampleEnv⟩

/-- Witness for C9: a trace-less error reads as `""` leaving the accessor
in place, and a failing write-back propagates the failure with the
property unchanged. -/
theorem stack_lazy_empty_and_write_back_witness :
    errorStackGetter sampleGetterEnvNoDefine
      (some ⟨[⟨none, some ⟨none, none, none, 0, true⟩⟩],
        .mk (.ok .undefined) (.ok .undefined)⟩) ⟨false, .accessor⟩ =
      (⟨false, .accessor⟩, .ok (.str "")) ∧
    defineStackValue sampleGetterEnvNoDefine ⟨false, .accessor⟩ (.str "x") =
      (⟨false, .accessor⟩, .error .allocFailure) := by
  have h := stack_lazy_empty_and_write_back sampleGetterEnvNoDefine
  exact ⟨h.1 _ ⟨false, .accessor⟩ _ ⟨none, none, none, 0, true⟩ rfl rfl rfl,
    (h.2.2 rfl).1 ⟨false, .accessor⟩ (.str "x")⟩

/-! ## C6: function-name list length and swallowed name allocations -/

/-- Pairing frames with their callers preserves the frame count. -/
theorem framePairs_length (fs : List Frame) :
    (framePairs fs).length = fs.length := by
  induction fs with
  | nil => rfl
  | cons f rest ih =>
    cases rest with
    | nil => rfl
    | cons g rest2 =>
      simp only [framePairs, List.length_cons] at ih ⊢
      omega

/-- When every push succeeds, `addDomain` always succeeds. -/
theorem addDomain_total (env : Env) (orc : CaptureOracles)
    (hpush : ∀ n, orc.domainPushOk n = true) (cb : Nat) (st : DomState) :
    ∃ st2, addDomain env orc cb st = some st2 := by
  unfold addDomain
  by_cases hl : st.domains.getLast? = some (env.domainOf cb)
  · exact ⟨st, by simp [hl]⟩
  · exact ⟨⟨st.domains ++ [env.domainOf cb], st.pushCount + 1⟩,
      by simp [hl, hpush st.pushCount]⟩

/-- When every domain push succeeds, the frame walk succeeds and yields
one entry per frame. -/
theorem captureLoop_total (env : Env) (orc : CaptureOracles)
    (hpush : ∀ n, orc.domainPushOk n = true) :
    ∀ (ps : List (Frame × Option Frame)) (st : DomState),
      ∃ es st2, captureLoop env orc ps st = some (es, st2) ∧
        es.length = ps.length := by
  intro ps
  induction ps with
  | nil => intro st; exact ⟨[], st, rfl, rfl⟩
  | cons p rest ih =>
    intro st
    obtain ⟨f, prev⟩ := p
    cases hcb : (captureEntry f prev).codeBlock with
    | none =>
      obtain ⟨es, st2, hc, hlen⟩ := ih st
      exact ⟨captureEntry f prev :: es, st2, by simp [captureLoop, hcb, hc],
        by simp [hlen]⟩
    | some cb =>
      obtain ⟨st1, ha⟩ := addDomain_total env orc hpush cb st
      obtain ⟨es, st2, hc, hlen⟩ := ih st1
      exact ⟨captureEntry f prev :: es, st2, by simp [captureLoop, hcb, ha, hc],
        by simp [hlen]⟩

/-- A successful name snapshot has one entry per processed frame. -/
theorem namesLoop_length (env : Env) (resizeOk : Nat → Bool) :
    ∀ (fs : List Frame) (i : Nat) (l : List Val),
      namesLoop env resizeOk fs i = some l → l.length = fs.length := by
  intro fs
  induction fs with
  | nil =>
    intro i l h
    simp [namesLoop] at h
    subst h
    rfl
  | cons f rest ih =>
    intro i l h
    by_cases hr : resizeOk i
    · simp [namesLoop, hr] at h
      obtain ⟨a, ha, hl⟩ := h
      subst hl
      simp [ih (i + 1) a ha]
    · simp [namesLoop, hr] at h

/-- A successful `getCallStackFunctionNames` covers exactly the processed
frames. -/
theorem getCallStackFunctionNames_length (env : Env) (orc : CaptureOracles)
    (skipTopFrame : Bool) (frames : List Frame) (l : List Val)
    (hl : getCallStackFunctionNames env orc skipTopFrame frames = some l) :
    l.length = (if skipTopFrame then frames.drop 1 else frames).length := by
  unfold getCallStackFunctionNames at hl
  by_cases hb : orc.namesCreateOk
  · simp only [hb, if_true] at hl
    exact namesLoop_length env orc.namesResizeOk _ 0 l hl
  · simp [hb] at hl

/-- C6: for a fresh error, with the domain allocations succeeding and the
capture not hitting the ambiguous-top-frame no-op, `recordStackTrace`
returns success and publishes the trace regardless of the name-storage
allocation outcomes (a name failure is swallowed, no exception escapes the
name sub-step); the published name list is absent or exactly as long as
the trace (innermost frame first); and if creating the name storage
failed the list is absent. -/
theorem recordStackTrace_names_invariant (env : Env) (orc : CaptureOracles)
    (frames : List Frame) (e : JSError) (skipTopFrame : Bool)
    (codeBlock : Option Nat) (ip : Nat)
    (h1 : e.stacktrace_ = none)
    (hdc : orc.domainsCreateOk = true)
    (hpush : ∀ n, orc.domainPushOk n = true)
    (hnoearly : (!skipTopFrame && codeBlock.isNone &&
      (frames.head?.bind Frame.calleeCodeBlock).isSome) = false) :
    (recordStackTrace env orc frames e skipTopFrame codeBlock ip).1 = .returned ∧
    (∃ tr, (recordStackTrace env orc frames e skipTopFrame codeBlock ip).2.stacktrace_ =
        some tr ∧
      ((recordStackTrace env orc frames e skipTopFrame codeBlock ip).2.funcNames_ =
          none ∨
        ∃ l, (recordStackTrace env orc frames e skipTopFrame codeBlock ip).2.funcNames_ =
            some l ∧ l.length = tr.length)) ∧
    (orc.namesCreateOk = false →
      (recordStackTrace env orc frames e skipTopFrame codeBlock ip).2.funcNames_ =
        none) := by
  have hfn0 : orc.namesCreateOk = false →
      getCallStackFunctionNames env orc skipTopFrame frames = none := by
    intro hb
    simp [getCallStackFunctionNames, hb]
  cases skipTopFrame with
  | true =>
    obtain ⟨es, st2, hc, hlen⟩ :=
      captureLoop_total env orc hpush (framePairs frames) ⟨[], 0⟩
    have hr : recordStackTrace env orc frames e true codeBlock ip =
        (.returned,
          { e with
            stacktrace_ := some es.dropLast
            funcNames_ := getCallStackFunctionNames env orc true frames
            domains_ := some st2.domains }) := by
      simp [recordStackTrace, h1, hdc, hc]
    refine ⟨by rw [hr], ⟨es.dropLast, by rw [hr], ?_⟩, fun hb => by
      rw [hr]; exact hfn0 hb⟩
    cases hn : getCallStackFunctionNames env orc true frames with
    | none => left; rw [hr]; exact hn
    | some l =>
      right
      refine ⟨l, by rw [hr]; exact hn, ?_⟩
      have hll := getCallStackFunctionNames_length env orc true frames l hn
      simp only [if_true] at hll
      rw [hll]
      rw [framePairs_length] at hlen
      simp [hlen]
  | false =>
    have hno : (frames.head?.bind Frame.calleeCodeBlock).isSome = false ∨
        codeBlock.isNone = false := by
      cases hcbn : codeBlock.isNone with
      | false => right; rfl
      | true =>
        left
        simpa [hcbn] using hnoearly
    cases codeBlock with
    | none =>
      have hno2 : (frames.head?.bind Frame.calleeCodeBlock).isSome = false := by
        rcases hno with h | h
        · exact h
        · simp at h
      obtain ⟨es, st2, hc, hlen⟩ :=
        captureLoop_total env orc hpush (framePairs frames) ⟨[], 0⟩
      have hr : recordStackTrace env orc frames e false none ip =
          (.returned,
            { e with
              stacktrace_ := some (((⟨none, 0⟩ : TraceEntry) :: es).dropLast)
              funcNames_ := getCallStackFunctionNames env orc false frames
              domains_ := some st2.domains }) := by
        simp [recordStackTrace, h1, hdc, hno2, hc]
      refine ⟨by rw [hr], ⟨((⟨none, 0⟩ : TraceEntry) :: es).dropLast,
        by rw [hr], ?_⟩, fun hb => by rw [hr]; exact hfn0 hb⟩
      cases hn : getCallStackFunctionNames env orc false frames with
      | none => left; rw [hr]; exact hn
      | some l =>
        right
        refine ⟨l, by rw [hr]; exact hn, ?_⟩
        have hll := getCallStackFunctionNames_length env orc false frames l hn
        simp only [Bool.false_eq_true, if_false] at hll
        rw [hll]
        rw [framePairs_length] at hlen
        simp [hlen]
    | some cb =>
      obtain ⟨st1, ha⟩ := addDomain_total env orc hpush cb ⟨[], 0⟩
      obtain ⟨es, st2, hc, hlen⟩ :=
        captureLoop_total env orc hpush (framePairs frames) st1
      have hr : recordStackTrace env orc frames e false (some cb) ip =
          (.returned,
            { e with
              stacktrace_ := some (((⟨some cb, ip⟩ : TraceEntry) :: es).dropLast)
              funcNames_ := getCallStackFunctionNames env orc false frames
              domains_ := some st2.domains }) := by
        simp [recordStackTrace, h1, hdc, ha, hc]
      refine ⟨by rw [hr], ⟨((⟨some cb, ip⟩ : TraceEntry) :: es).dropLast,
        by rw [hr], ?_⟩, fun hb => by rw [hr]; exact hfn0 hb⟩
      cases hn : getCallStackFunctionNames env orc false frames with
      | none => left; rw [hr]; exact hn
      | some l =>
        right
        refine ⟨l, by rw [hr]; exact hn, ?_⟩
        have hll := getCallStackFunctionNames_length env orc false frames l hn
        simp only [Bool.false_eq_true, if_false] at hll
        rw [hll]
        rw [framePairs_length] at hlen
        simp [hlen]

/-- Witness for C6: a one-frame capture whose name-storage creation
fails; the capture still succeeds with a trace and no name list. -/
theorem recordStackTrace_names_invariant_witness :
    (recordStackTrace sampleEnv ⟨true, fun _ => true, false, fun _ => true⟩
      [⟨.codeBlockPtr 5, some 5, some 3⟩] ⟨none, none, none, 0, true⟩
      false (some 5) 7).1 = .returned ∧
    (recordStackTrace sampleEnv ⟨true, fun _ => true, false, fun _ => true⟩
      [⟨.codeBlockPtr 5, some 5, some 3⟩] ⟨none, none, none, 0, true⟩
      false (some 5) 7).2.funcNames_ = none ∧
    (recordStackTrace sampleEnv ⟨true, fun _ => true, false, fun _ => true⟩
      [⟨.codeBlockPtr 5, some 5, some 3⟩] ⟨none, none, none, 0, true⟩
      false (some 5) 7).2.stacktrace_.isSome = true := by
  have h := recordStackTrace_names_invariant sampleEnv
    ⟨true, fun _ => true, false, fun _ => true⟩
    [⟨.codeBlockPtr 5, some 5, some 3⟩] ⟨none, none, none, 0, true⟩
    false (some 5) 7 rfl rfl (fun _ => rfl) rfl
  refine ⟨h.1, h.2.2 rfl, ?_⟩
  obtain ⟨tr, htr, _⟩ := h.2.1
  simp [htr]

end HermesJSError
